import Mathlib

/-!
Verification of the multipart-upload core of a JavaScript object-storage
client (`upload.js`).  The file shallowly embeds the four operations of the
core — the part-size calculator, the stream orchestrator `streamUpload`, the
part uploader `doPutObject` and the finalizer `completeMultipartUpload` — as
executable Lean functions, and proves theorems about them.

Modelling conventions:
* Byte buffers are `List Nat`; only their contents and lengths matter.
* The external `crypto` module is a record of digest functions (`CryptoFns`),
  passed as a parameter, since the source treats it as an opaque collaborator.
* The external `block-stream2` re-chunker (size `partSize`, no zero padding)
  is embedded as `chunkList`: consecutive buffers of exactly `partSize`
  elements, a shorter final buffer holding the remainder, and no buffer at all
  for empty input.
* JavaScript values that may be `undefined`/`null` (the content type) are
  embedded as `JSVal`.  The network is embedded as an oracle
  `upload : Nat → List Nat → Except String String` giving each part PUT's
  outcome, and `doPutObject` returns the request it would sign and send.
* The `through2` transform of `streamUpload` runs strictly sequentially (one
  chunk fully resolves before the next is pulled), so it is embedded as a fold
  of a step function `processChunk` over the chunk list; the step also records
  an event trace saying which parts were hashed and which were uploaded.
-/

/-- JavaScript value for the `contentType` argument: `undefined`, `null`, or a
string. -/
inductive JSVal where
  | undef : JSVal
  | null : JSVal
  | str : String → JSVal
deriving DecidableEq, Repr

/-- The digest functions taken from the external `crypto` module.  `md5Hex` is
`createHash('md5')...digest('hex')`, `md5Base64` is `...digest('base64')`,
`sha256Hex` is `createHash('sha256')...digest('hex')`. -/
structure CryptoFns where
  md5Hex : List Nat → String
  md5Base64 : List Nat → String
  sha256Hex : List Nat → String

/-- One record of the caller-supplied resume manifest (`partsArray`); the
source reads only its `etag` field (the stored lowercase-hex content hash,
reused as the entity tag). -/
structure ResumeRecord where
  etag : String
deriving DecidableEq, Repr

/-- One entry of the accumulated completion manifest (`etags` array):
`{ part: ..., etag: ... }`. -/
structure PartEtag where
  part : Nat
  etag : String
deriving DecidableEq, Repr

/-- Trace of observable actions of the orchestrator: `hashed n` marks the MD5
computation over part `n`'s buffer (resume comparison), `uploaded n` marks an
invocation of `doPutObject` for part `n`. -/
inductive UploadEvent where
  | hashed : Nat → UploadEvent
  | uploaded : Nat → UploadEvent
deriving DecidableEq, Repr

/-- The mutable state of `streamUpload`'s transform: current 1-based part
number, the first-error latch `errored`, the accumulated manifest `etags`, the
remaining resume manifest `partsArray`, the running byte tally `totalSeen`,
plus the event trace. -/
structure UploadState where
  part : Nat
  errored : Option String
  etags : List PartEtag
  partsArray : List ResumeRecord
  totalSeen : Nat
  events : List UploadEvent
deriving DecidableEq, Repr

/-- Connection parameters threaded to every request. -/
structure ReqParams where
  host : String
  port : Nat
  protocol : String
deriving DecidableEq, Repr

/-- The PUT request descriptor `doPutObject` builds, hands to `signV4` and
sends.  `signedPayloadHash` records the payload hash given to the signer. -/
structure PutRequest where
  host : String
  port : Nat
  protocol : String
  path : String
  method : String
  contentLength : Nat
  contentType : JSVal
  contentMD5 : String
  signedPayloadHash : String
deriving DecidableEq, Repr

/-- `calculatePartSize` (upload.js lines 139-149): floor 5 MiB, ceiling
`5*1025*1024*1024`, candidate `⌊size / 9999⌋`. -/
def calculatePartSize (size : Nat) : Nat :=
  let minimumPartSize := 5 * 1024 * 1024
  let maximumPartSize := 5 * 1025 * 1024 * 1024
  let partSize := size / 9999
  if partSize > maximumPartSize then maximumPartSize
  else max minimumPartSize partSize

/-- Fuelled worker for `chunkList`; the fuel is an upper bound on the number
of chunks (the input length suffices whenever `1 ≤ size`). -/
def chunkGo (size : Nat) : Nat → List Nat → List (List Nat)
  | _, [] => []
  | 0, l => [l]
  | Nat.succ fuel, l =>
       if l.length ≤ size then [l]
       else l.take size :: chunkGo size fuel (l.drop size)

/-- The `block-stream2` re-chunker with `zeroPadding: false`: consecutive
buffers of exactly `size` bytes, a shorter final buffer for the remainder,
and no buffer at all when the input is empty. -/
def chunkList (size : Nat) (l : List Nat) : List (List Nat) :=
  chunkGo size l.length l

/-- Total number of bytes covered by a chunk list. -/
def sumLens (cs : List (List Nat)) : Nat :=
  (cs.map List.length).sum

/-- Shape invariant of `block-stream2` output: every chunk but the last has
exactly `size` bytes, and the last has at most `size`. -/
def chunksOk (size : Nat) : List (List Nat) → Prop
  | [] => True
  | c :: rest => (c.length = size ∨ (rest = [] ∧ c.length ≤ size)) ∧ chunksOk size rest

/-- The size-mismatch message used by `streamUpload` (lines 85 and 134). -/
def sizeMismatchMsg : String := "actual size does not match specified size"

/-- Character-wise lowercasing, the `toLowerCase()` the source applies to hex
digests before comparing or signing (written over the character list so it
evaluates by reduction). -/
def strToLower (s : String) : String := ⟨s.data.map Char.toLower⟩

/-- Initial transform state (upload.js lines 66-71). -/
def initState (partsArray : List ResumeRecord) : UploadState :=
  { part := 1, errored := none, etags := [], partsArray := partsArray,
    totalSeen := 0, events := [] }

/-- The tail of the transform step that invokes `doPutObject` for part
`curPart` (lines 108-126): on error the latch is set, on success the entity
tag is appended to the manifest. -/
def runUpload (upload : Nat → List Nat → Except String String)
    (s : UploadState) (curPart : Nat) (data : List Nat) : UploadState :=
  match upload curPart data with
  | Except.error e =>
      { s with errored := some e,
               events := s.events ++ [UploadEvent.uploaded curPart] }
  | Except.ok etag =>
      { s with etags := s.etags ++ [{ part := curPart, etag := etag }],
               events := s.events ++ [UploadEvent.uploaded curPart] }

/-- One `through2` transform step of `streamUpload` (lines 77-127) on chunk
`data`: skip everything once `errored` is latched; a chunk shorter than
`partSize` must be exactly the remainder `totalSize - totalSeen` or the latch
is set to the size-mismatch message; otherwise tally the bytes, advance the
part counter, and either consume the resume head (comparing its stored etag to
the chunk's lowercase-hex MD5, skipping the upload on a match) or upload the
chunk. -/
def processChunk (crypto : CryptoFns) (upload : Nat → List Nat → Except String String)
    (totalSize partSize : Nat) (s : UploadState) (data : List Nat) : UploadState :=
  if s.errored.isSome then s
  else if data.length < partSize ∧ (totalSize : Int) - (s.totalSeen : Int) ≠ (data.length : Int) then
    { s with errored := some sizeMismatchMsg }
  else
    match s.partsArray with
    | [] =>
        runUpload upload
          { s with totalSeen := s.totalSeen + data.length, part := s.part + 1 }
          s.part data
    | curJob :: rest =>
        if curJob.etag = strToLower (crypto.md5Hex data) then
          { s with totalSeen := s.totalSeen + data.length, part := s.part + 1,
                   partsArray := rest,
                   events := s.events ++ [UploadEvent.hashed s.part],
                   etags := s.etags ++ [{ part := s.part, etag := strToLower (crypto.md5Hex data) }] }
        else
          runUpload upload
            { s with totalSeen := s.totalSeen + data.length, part := s.part + 1,
                     partsArray := rest,
                     events := s.events ++ [UploadEvent.hashed s.part] }
            s.part data

/-- Sequential run of the transform over a chunk list. -/
def processChunks (crypto : CryptoFns) (upload : Nat → List Nat → Except String String)
    (totalSize partSize : Nat) : UploadState → List (List Nat) → UploadState
  | s, [] => s
  | s, c :: cs =>
      processChunks crypto upload totalSize partSize
        (processChunk crypto upload totalSize partSize s c) cs

/-- The `through2` flush callback (lines 128-137): report the latched error if
any, otherwise fail when the byte tally differs from the declared total,
otherwise deliver the manifest. -/
def finishUpload (totalSize : Nat) (s : UploadState) : Except String (List PartEtag) :=
  match s.errored with
  | some e => Except.error e
  | none =>
      if s.totalSeen ≠ totalSize then Except.error sizeMismatchMsg
      else Except.ok s.etags

/-- Final transform state of `streamUpload` on a whole input stream. -/
def streamUploadState (crypto : CryptoFns) (upload : Nat → List Nat → Except String String)
    (partsArray : List ResumeRecord) (totalSize : Nat) (stream : List Nat) : UploadState :=
  processChunks crypto upload totalSize (calculatePartSize totalSize)
    (initState partsArray) (chunkList (calculatePartSize totalSize) stream)

/-- `streamUpload` (upload.js lines 65-150): result delivered to the final
callback — either an error or the accumulated manifest. -/
def streamUpload (crypto : CryptoFns) (upload : Nat → List Nat → Except String String)
    (partsArray : List ResumeRecord) (totalSize : Nat) (stream : List Nat) :
    Except String (List PartEtag) :=
  finishUpload totalSize (streamUploadState crypto upload partsArray totalSize stream)

/-- `doPutObject` (upload.js lines 152-207): build the part query when `part`
is truthy, default a `null` or empty content type, check the buffered length
against the declared size (failing without building anything), then build the
PUT request with its integrity header and the payload hash handed to the
signer. -/
def doPutObject (crypto : CryptoFns) (esc : String → String) (params : ReqParams)
    (bucket key : String) (contentType : JSVal) (size : Nat) (uploadId : String)
    (part : Option Nat) (data : List Nat) : Except String PutRequest :=
  let query : String :=
    match part with
    | some n => if n = 0 then "" else "?partNumber=" ++ toString n ++ "&uploadId=" ++ uploadId
    | none => ""
  let ct : JSVal :=
    if contentType = JSVal.null ∨ contentType = JSVal.str "" then
      JSVal.str "application/octet-stream"
    else contentType
  if data.length ≠ size then Except.error "actual size !== specified size"
  else Except.ok
    { host := params.host, port := params.port, protocol := params.protocol,
      path := "/" ++ bucket ++ "/" ++ esc key ++ query,
      method := "PUT",
      contentLength := size,
      contentType := ct,
      contentMD5 := crypto.md5Base64 data,
      signedPayloadHash := strToLower (crypto.sha256Hex data) }

/-- Content type carried by a built request, `none` when no request was
built. -/
def sentContentType : Except String PutRequest → Option JSVal
  | Except.ok r => some r.contentType
  | Except.error _ => none

/-- XML tree as built by the `xml` package from the payload object. -/
inductive XmlNode where
  | elem : String → List XmlNode → XmlNode
  | text : String → XmlNode

/-- The completion document built by `completeMultipartUpload` (upload.js
lines 217-231): a `CompleteMultipartUpload` root whose children are one `Part`
element per manifest entry, in the order the entries appear in `etags`, each
carrying `PartNumber` and `ETag`. -/
def completeMultipartUpload (etags : List PartEtag) : XmlNode :=
  XmlNode.elem "CompleteMultipartUpload"
    (etags.map fun e =>
      XmlNode.elem "Part"
        [XmlNode.elem "PartNumber" [XmlNode.text (toString e.part)],
         XmlNode.elem "ETag" [XmlNode.text e.etag]])

/-- The `PartNumber` text of a `Part` element, `none` for anything else. -/
def partNumberOfNode : XmlNode → Option String
  | XmlNode.elem "Part" (XmlNode.elem "PartNumber" [XmlNode.text n] :: _) => some n
  | _ => none

/-- The `PartNumber` values listed by the document's `Part` children, in
document order. -/
def partNumberTexts : XmlNode → List String
  | XmlNode.elem _ children => children.filterMap partNumberOfNode
  | XmlNode.text _ => []

/-- Dummy digest functions for concrete witnesses (the source treats the
digest functions as opaque, so any functions instantiate the theorems). -/
def dummyCrypto : CryptoFns :=
  { md5Hex := fun d => "m" ++ toString d.length,
    md5Base64 := fun d => "b" ++ toString d.length,
    sha256Hex := fun d => "s" ++ toString d.length }

/-- Identity escaping for concrete witnesses. -/
def idEsc : String → String := fun s => s

/-- Connection parameters for concrete witnesses. -/
def dummyParams : ReqParams := { host := "h", port := 80, protocol := "http:" }

/-- Upload oracle that always succeeds, for concrete witnesses. -/
def okUpload : Nat → List Nat → Except String String :=
  fun n _ => Except.ok ("t" ++ toString n)

/-- Upload oracle that always fails, for concrete witnesses. -/
def failUpload : Nat → List Nat → Except String String :=
  fun _ _ => Except.error "boom"

/-- C2: the part-size calculator returns `max(5 MiB, ⌊S / 9999⌋)` clamped
above by the ceiling `5*1025*1024*1024`; hence it returns exactly 5 MiB
whenever the candidate is at most 5 MiB, exactly the ceiling whenever the
candidate exceeds it, exactly 10 MiB at `S = 9999 * 10 MiB`, and its output
always lies in `[5 MiB, ceiling]`. -/
theorem calculatePartSize_spec (S : Nat) :
    calculatePartSize S
      = min (5 * 1025 * 1024 * 1024) (max (5 * 1024 * 1024) (S / 9999))
    ∧ 5 * 1024 * 1024 ≤ calculatePartSize S
    ∧ calculatePartSize S ≤ 5 * 1025 * 1024 * 1024
    ∧ (S / 9999 ≤ 5 * 1024 * 1024 → calculatePartSize S = 5 * 1024 * 1024)
    ∧ (5 * 1025 * 1024 * 1024 < S / 9999 →
        calculatePartSize S = 5 * 1025 * 1024 * 1024)
    ∧ calculatePartSize (9999 * (10 * 1024 * 1024)) = 10 * 1024 * 1024 := by
  have h : ∀ T : Nat, calculatePartSize T =
      if T / 9999 > 5 * 1025 * 1024 * 1024 then 5 * 1025 * 1024 * 1024
      else max (5 * 1024 * 1024) (T / 9999) := fun _ => rfl
  refine ⟨?_, ?_, ?_, fun hc => ?_, fun hc => ?_, ?_⟩ <;> rw [h] <;> split <;> omega

/-- Witness for C2: at `S = 0` the candidate is below the floor and exactly
5 MiB is returned; at `S = 10 ^ 15` the candidate exceeds the ceiling and the
ceiling is returned. -/
theorem calculatePartSize_spec_witness :
    calculatePartSize 0 = 5 * 1024 * 1024
    ∧ calculatePartSize (10 ^ 15) = 5 * 1025 * 1024 * 1024 :=
  ⟨(calculatePartSize_spec 0).2.2.2.1 (by decide),
   (calculatePartSize_spec (10 ^ 15)).2.2.2.2.1 (by decide)⟩

/-- When the buffered length matches the declared size, `doPutObject` builds
exactly this request. -/
theorem doPutObject_builds (crypto : CryptoFns) (esc : String → String)
    (params : ReqParams) (bucket key : String) (contentType : JSVal) (size : Nat)
    (uploadId : String) (part : Option Nat) (data : List Nat)
    (h : data.length = size) :
    doPutObject crypto esc params bucket key contentType size uploadId part data
      = Except.ok
        { host := params.host, port := params.port, protocol := params.protocol,
          path := "/" ++ bucket ++ "/" ++ esc key ++
            (match part with
             | some n =>
                 if n = 0 then "" else "?partNumber=" ++ toString n ++ "&uploadId=" ++ uploadId
             | none => ""),
          method := "PUT", contentLength := size,
          contentType := if contentType = JSVal.null ∨ contentType = JSVal.str "" then
              JSVal.str "application/octet-stream" else contentType,
          contentMD5 := crypto.md5Base64 data,
          signedPayloadHash := strToLower (crypto.sha256Hex data) } := by
  simp [doPutObject, h]

/-- C6: `doPutObject` fails with the size-mismatch error and builds no request
whenever the buffered payload's length differs from the declared size, and
builds (signs, sends) a request exactly when the lengths agree. -/
theorem doPutObject_size_guard (crypto : CryptoFns) (esc : String → String)
    (params : ReqParams) (bucket key : String) (contentType : JSVal) (size : Nat)
    (uploadId : String) (part : Option Nat) (data : List Nat) :
    (data.length ≠ size →
      doPutObject crypto esc params bucket key contentType size uploadId part data
        = Except.error "actual size !== specified size")
    ∧ (data.length = size →
        ∃ req, doPutObject crypto esc params bucket key contentType size uploadId part data
          = Except.ok req) := by
  constructor
  · intro h
    simp [doPutObject, h]
  · intro h
    exact ⟨_, doPutObject_builds crypto esc params bucket key contentType size uploadId
      part data h⟩

/-- Witness for C6: a three-byte buffer declared as five bytes is rejected
with the size-mismatch error; declared as three bytes, a request is built. -/
theorem doPutObject_size_guard_witness :
    doPutObject dummyCrypto idEsc dummyParams "b" "k" (JSVal.str "text/plain") 5 "u"
        (some 1) [1, 2, 3]
      = Except.error "actual size !== specified size"
    ∧ ∃ req, doPutObject dummyCrypto idEsc dummyParams "b" "k" (JSVal.str "text/plain") 3 "u"
        (some 1) [1, 2, 3] = Except.ok req :=
  ⟨(doPutObject_size_guard dummyCrypto idEsc dummyParams "b" "k" (JSVal.str "text/plain")
      5 "u" (some 1) [1, 2, 3]).1 (by decide),
   (doPutObject_size_guard dummyCrypto idEsc dummyParams "b" "k" (JSVal.str "text/plain")
      3 "u" (some 1) [1, 2, 3]).2 (by decide)⟩

/-- C7: for a buffer of the declared length, the request `doPutObject` builds
is a PUT on `/bucket/escapedKey?partNumber=n&uploadId=id` for a nonzero part
number and on `/bucket/escapedKey` with no query when the part number is
absent or zero, declares `Content-Length` equal to the declared size and
`Content-MD5` equal to the base64 MD5 digest of the buffer, and is signed with
the lowercase hex SHA-256 digest of the buffer. -/
theorem doPutObject_request_shape (crypto : CryptoFns) (esc : String → String)
    (params : ReqParams) (bucket key : String) (contentType : JSVal) (size : Nat)
    (uploadId : String) (part : Option Nat) (data : List Nat)
    (h : data.length = size) :
    ∃ req,
      doPutObject crypto esc params bucket key contentType size uploadId part data
        = Except.ok req
      ∧ req.method = "PUT"
      ∧ req.contentLength = size
      ∧ req.contentMD5 = crypto.md5Base64 data
      ∧ req.signedPayloadHash = strToLower (crypto.sha256Hex data)
      ∧ (∀ n, part = some n → n ≠ 0 →
          req.path = "/" ++ bucket ++ "/" ++ esc key
            ++ "?partNumber=" ++ toString n ++ "&uploadId=" ++ uploadId)
      ∧ ((part = none ∨ part = some 0) →
          req.path = "/" ++ bucket ++ "/" ++ esc key) := by
  refine ⟨_, doPutObject_builds crypto esc params bucket key contentType size uploadId
    part data h, rfl, rfl, rfl, rfl, ?_, ?_⟩
  · intro n hn hnz
    subst hn
    simp [hnz, String.append_assoc]
  · rintro (hp | hp) <;> subst hp <;> simp

/-- Witness for C7: a concrete two-byte part with part number 4, and the
resulting path. -/
theorem doPutObject_request_shape_witness :
    ∃ req,
      doPutObject dummyCrypto idEsc dummyParams "bkt" "key" (JSVal.str "text/plain") 2 "uid"
          (some 4) [9, 9]
        = Except.ok req
      ∧ req.method = "PUT"
      ∧ req.contentLength = 2
      ∧ req.contentMD5 = dummyCrypto.md5Base64 [9, 9]
      ∧ req.signedPayloadHash = strToLower (dummyCrypto.sha256Hex [9, 9])
      ∧ (∀ n, (some 4 : Option Nat) = some n → n ≠ 0 →
          req.path = "/" ++ "bkt" ++ "/" ++ idEsc "key"
            ++ "?partNumber=" ++ toString n ++ "&uploadId=" ++ "uid")
      ∧ (((some 4 : Option Nat) = none ∨ (some 4 : Option Nat) = some 0) →
          req.path = "/" ++ "bkt" ++ "/" ++ idEsc "key") :=
  doPutObject_request_shape dummyCrypto idEsc dummyParams "bkt" "key" (JSVal.str "text/plain")
    2 "uid" (some 4) [9, 9] (by decide)

/-- C8 counterexample: with an `undefined` content type the source's strict
comparison `contentType === null || contentType === ''` matches neither arm,
so the built request carries `undefined` as its content type rather than the
claimed `application/octet-stream` default. -/
theorem doPutObject_undefined_content_type_not_defaulted :
    sentContentType (doPutObject dummyCrypto idEsc dummyParams "b" "k" JSVal.undef 0 "u" none [])
      = some JSVal.undef
    ∧ some JSVal.undef ≠ some (JSVal.str "application/octet-stream") := by
  exact ⟨rfl, by decide⟩

/-- C8 (amended): a `null` or empty-string content type is replaced by
`application/octet-stream`; an `undefined` content type is passed through
unchanged (not defaulted); any other string is used verbatim. -/
theorem doPutObject_content_type_default (crypto : CryptoFns) (esc : String → String)
    (params : ReqParams) (bucket key : String) (size : Nat) (uploadId : String)
    (part : Option Nat) (data : List Nat) (h : data.length = size) :
    sentContentType (doPutObject crypto esc params bucket key JSVal.null size uploadId part data)
      = some (JSVal.str "application/octet-stream")
    ∧ sentContentType
        (doPutObject crypto esc params bucket key (JSVal.str "") size uploadId part data)
      = some (JSVal.str "application/octet-stream")
    ∧ sentContentType
        (doPutObject crypto esc params bucket key JSVal.undef size uploadId part data)
      = some JSVal.undef
    ∧ ∀ ctStr, ctStr ≠ "" →
        sentContentType
            (doPutObject crypto esc params bucket key (JSVal.str ctStr) size uploadId part data)
          = some (JSVal.str ctStr) := by
  refine ⟨?_, ?_, ?_, fun ctStr hne => ?_⟩
  · simp [doPutObject, sentContentType, h]
  · simp [doPutObject, sentContentType, h]
  · simp [doPutObject, sentContentType, h]
  · simp [doPutObject, sentContentType, h, hne]

/-- Witness for C8 (amended): concrete one-byte uploads with each of the four
content-type shapes. -/
theorem doPutObject_content_type_default_witness :
    sentContentType (doPutObject dummyCrypto idEsc dummyParams "b" "k" JSVal.null 1 "u" none [7])
      = some (JSVal.str "application/octet-stream")
    ∧ sentContentType
        (doPutObject dummyCrypto idEsc dummyParams "b" "k" (JSVal.str "") 1 "u" none [7])
      = some (JSVal.str "application/octet-stream")
    ∧ sentContentType
        (doPutObject dummyCrypto idEsc dummyParams "b" "k" JSVal.undef 1 "u" none [7])
      = some JSVal.undef
    ∧ ∀ ctStr, ctStr ≠ "" →
        sentContentType
            (doPutObject dummyCrypto idEsc dummyParams "b" "k" (JSVal.str ctStr) 1 "u" none [7])
          = some (JSVal.str ctStr) :=
  doPutObject_content_type_default dummyCrypto idEsc dummyParams "b" "k" 1 "u" none [7]
    (by decide)

/-- The `PartNumber` texts listed by the completion document are exactly the
manifest's part numbers, rendered in the order the entries appear. -/
theorem partNumberTexts_complete (l : List PartEtag) :
    partNumberTexts (completeMultipartUpload l) = l.map fun e => toString e.part := by
  induction l with
  | nil => rfl
  | cons e t ih =>
    have he : partNumberOfNode (XmlNode.elem "Part"
        [XmlNode.elem "PartNumber" [XmlNode.text (toString e.part)],
         XmlNode.elem "ETag" [XmlNode.text e.etag]]) = some (toString e.part) := rfl
    simp only [completeMultipartUpload, partNumberTexts, List.map_cons,
      List.filterMap_cons, he] at ih ⊢
    exact congrArg (List.cons (toString e.part)) ih

/-- C1 counterexample: `completeMultipartUpload` serializes the manifest in
append order without sorting, so the permuted manifest
`[(2, "b"), (1, "a")]` — a permutation of a valid manifest for `N = 2` —
yields a document listing `PartNumber` 2 before 1, not the strictly ascending
`1, 2` the claim requires. -/
theorem completeMultipartUpload_permutation_not_sorted :
    partNumberTexts (completeMultipartUpload
        [{ part := 2, etag := "b" }, { part := 1, etag := "a" }]) = ["2", "1"]
    ∧ ["2", "1"] ≠ ["1", "2"] :=
  ⟨rfl, by decide⟩

/-- C1 (amended): the serialized completion document lists its `Part` elements
in exactly the order the entries appear in the manifest (no defensive sort);
consequently, when the manifest's part numbers are `1..N` in ascending order —
as the sequential orchestrator produces them — the document lists `PartNumber`
values strictly ascending with no duplicates and no gaps from 1 to `N`. -/
theorem completeMultipartUpload_preserves_manifest_order (etags : List PartEtag) :
    partNumberTexts (completeMultipartUpload etags) = etags.map (fun e => toString e.part)
    ∧ ∀ N, etags.map PartEtag.part = List.range' 1 N →
        partNumberTexts (completeMultipartUpload etags) = (List.range' 1 N).map toString := by
  refine ⟨partNumberTexts_complete etags, fun N hN => ?_⟩
  rw [partNumberTexts_complete etags, ← hN, List.map_map]
  rfl

/-- Witness for C1 (amended): an in-order two-part manifest yields the
document part numbers `1, 2`. -/
theorem completeMultipartUpload_preserves_manifest_order_witness :
    partNumberTexts (completeMultipartUpload
        [{ part := 1, etag := "a" }, { part := 2, etag := "b" }]) = ["1", "2"] := by
  have h := (completeMultipartUpload_preserves_manifest_order
      [{ part := 1, etag := "a" }, { part := 2, etag := "b" }]).2 2 (by decide)
  exact h.trans (by decide)

/-- Unfolding: an empty chunk list leaves the state unchanged. -/
theorem processChunks_nil (crypto : CryptoFns) (upload : Nat → List Nat → Except String String)
    (totalSize partSize : Nat) (s : UploadState) :
    processChunks crypto upload totalSize partSize s [] = s := rfl

/-- Unfolding: processing a chunk list steps through its head first. -/
theorem processChunks_cons (crypto : CryptoFns) (upload : Nat → List Nat → Except String String)
    (totalSize partSize : Nat) (s : UploadState) (c : List Nat) (cs : List (List Nat)) :
    processChunks crypto upload totalSize partSize s (c :: cs)
      = processChunks crypto upload totalSize partSize
          (processChunk crypto upload totalSize partSize s c) cs := rfl

/-- Processing distributes over appended chunk lists. -/
theorem processChunks_append (crypto : CryptoFns) (upload : Nat → List Nat → Except String String)
    (totalSize partSize : Nat) :
    ∀ (as bs : List (List Nat)) (s : UploadState),
      processChunks crypto upload totalSize partSize s (as ++ bs)
        = processChunks crypto upload totalSize partSize
            (processChunks crypto upload totalSize partSize s as) bs := by
  intro as
  induction as with
  | nil => intro bs s; rfl
  | cons a as ih => intro bs s; simpa [processChunks_cons] using ih bs _

/-- Once the first-error latch is set, a transform step does nothing
(upload.js lines 78-80). -/
theorem processChunk_frozen (crypto : CryptoFns) (upload : Nat → List Nat → Except String String)
    (totalSize partSize : Nat) (s : UploadState) (c : List Nat)
    (h : s.errored.isSome = true) :
    processChunk crypto upload totalSize partSize s c = s := by
  unfold processChunk
  simp [h]

/-- Once the first-error latch is set, the whole remaining run does nothing. -/
theorem processChunks_frozen (crypto : CryptoFns) (upload : Nat → List Nat → Except String String)
    (totalSize partSize : Nat) :
    ∀ (cs : List (List Nat)) (s : UploadState), s.errored.isSome = true →
      processChunks crypto upload totalSize partSize s cs = s := by
  intro cs
  induction cs with
  | nil => intro s _; rfl
  | cons c cs ih =>
      intro s h
      rw [processChunks_cons, processChunk_frozen crypto upload totalSize partSize s c h, ih s h]

/-- C9 (code-bug evidence): on an empty input stream declared as 0 bytes the
re-chunker emits no buffer at all, the transform never runs, and
`streamUpload` reports success with an empty manifest and an empty event
trace — it neither uploads one zero-length part nor rejects the upload. -/
theorem streamUpload_empty_stream_completes_empty :
    streamUpload dummyCrypto okUpload [] 0 [] = Except.ok []
    ∧ (streamUploadState dummyCrypto okUpload [] 0 []).events = [] :=
  ⟨rfl, rfl⟩

/-- C10: when no error is latched, the remainder guard passes and the resume
manifest is non-empty, the transform step removes the manifest's head record
unconditionally — also when the stored hash does not match the chunk's MD5 —
so exactly one record is consumed for the produced part and that record is
never consulted again. -/
theorem processChunk_consumes_head_unconditionally (crypto : CryptoFns)
    (upload : Nat → List Nat → Except String String) (totalSize partSize : Nat)
    (s : UploadState) (data : List Nat) (r : ResumeRecord) (rest : List ResumeRecord)
    (h1 : s.errored = none)
    (h2 : s.partsArray = r :: rest)
    (h3 : ¬ (data.length < partSize
          ∧ (totalSize : Int) - (s.totalSeen : Int) ≠ (data.length : Int))) :
    (processChunk crypto upload totalSize partSize s data).partsArray = rest := by
  unfold processChunk
  rw [h1, h2]
  simp only [Option.isSome_none, Bool.false_eq_true, if_false, if_neg h3]
  split
  · rfl
  · unfold runUpload
    cases upload s.part data <;> rfl

/-- Witness for C10: a one-record manifest whose stored hash does not match
the chunk is still consumed. -/
theorem processChunk_consumes_head_unconditionally_witness :
    (processChunk dummyCrypto okUpload 1 (calculatePartSize 1)
        (initState [{ etag := "zz" }]) [9]).partsArray = [] :=
  processChunk_consumes_head_unconditionally dummyCrypto okUpload 1 (calculatePartSize 1)
    (initState [{ etag := "zz" }]) [9] { etag := "zz" } [] rfl rfl (by decide)

/-- `sumLens` on the empty chunk list. -/
theorem sumLens_nil : sumLens [] = 0 := rfl

/-- `sumLens` on a cons. -/
theorem sumLens_cons (c : List Nat) (cs : List (List Nat)) :
    sumLens (c :: cs) = c.length + sumLens cs := by
  simp [sumLens]

/-- A suffix of a well-shaped chunk list is well shaped. -/
theorem chunksOk_suffix (size : Nat) :
    ∀ (as bs : List (List Nat)), chunksOk size (as ++ bs) → chunksOk size bs := by
  intro as
  induction as with
  | nil => intro bs h; exact h
  | cons a as ih => intro bs h; exact ih bs h.2

/-- The fuelled chunker yields a well-shaped list covering the whole input,
given positive chunk size and enough fuel. -/
theorem chunkGo_ok (size : Nat) (hsz : 1 ≤ size) :
    ∀ (fuel : Nat) (l : List Nat), l.length ≤ fuel →
      chunksOk size (chunkGo size fuel l) ∧ sumLens (chunkGo size fuel l) = l.length := by
  intro fuel
  induction fuel with
  | zero =>
      intro l hl
      cases l with
      | nil => exact ⟨trivial, rfl⟩
      | cons x xs => simp at hl
  | succ f ih =>
      intro l hl
      cases l with
      | nil => exact ⟨trivial, rfl⟩
      | cons x xs =>
          show chunksOk size (if (x :: xs).length ≤ size then [x :: xs]
              else (x :: xs).take size :: chunkGo size f ((x :: xs).drop size))
            ∧ sumLens (if (x :: xs).length ≤ size then [x :: xs]
              else (x :: xs).take size :: chunkGo size f ((x :: xs).drop size)) = (x :: xs).length
          split
          · rename_i hle
            refine ⟨⟨Or.inr ⟨rfl, hle⟩, trivial⟩, ?_⟩
            rw [sumLens_cons, sumLens_nil]
            omega
          · rename_i hgt
            have hlen : ((x :: xs).drop size).length ≤ f := by
              rw [List.length_drop]
              omega
            obtain ⟨hok, hsum⟩ := ih ((x :: xs).drop size) hlen
            have htk : ((x :: xs).take size).length = size := by
              rw [List.length_take]
              omega
            refine ⟨⟨Or.inl htk, hok⟩, ?_⟩
            rw [sumLens_cons, htk, hsum, List.length_drop]
            omega

/-- The re-chunker's output is well shaped and covers the input. -/
theorem chunkList_ok (size : Nat) (hsz : 1 ≤ size) (l : List Nat) :
    chunksOk size (chunkList size l) ∧ sumLens (chunkList size l) = l.length :=
  chunkGo_ok size hsz l.length l le_rfl

/-- The computed part size is positive (it is at least 5 MiB). -/
theorem calculatePartSize_pos (size : Nat) : 1 ≤ calculatePartSize size := by
  have h : calculatePartSize size =
      if size / 9999 > 5 * 1025 * 1024 * 1024 then 5 * 1025 * 1024 * 1024
      else max (5 * 1024 * 1024) (size / 9999) := rfl
  rw [h]
  split <;> omega

/-- On a well-shaped chunk list whose lengths tally with the declared total, a
chunk shorter than the part size is the final remainder, so the transform's
size guard never fires. -/
theorem guard_not_triggered (totalSize partSize seen : Nat) (c : List Nat)
    (rest : List (List Nat))
    (hok : chunksOk partSize (c :: rest))
    (hsum : seen + sumLens (c :: rest) = totalSize) :
    ¬ (c.length < partSize ∧ (totalSize : Int) - (seen : Int) ≠ (c.length : Int)) := by
  rintro ⟨hlt, hne⟩
  rw [sumLens_cons] at hsum
  rcases hok.1 with heq | ⟨hrest, _⟩
  · omega
  · subst hrest
    rw [sumLens_nil] at hsum
    apply hne
    omega

/-- `runUpload` on a successful part PUT appends the returned entity tag and
an upload event. -/
theorem runUpload_ok (upload : Nat → List Nat → Except String String)
    (s : UploadState) (curPart : Nat) (data : List Nat) (t : String)
    (h : upload curPart data = Except.ok t) :
    runUpload upload s curPart data
      = { s with etags := s.etags ++ [{ part := curPart, etag := t }],
                 events := s.events ++ [UploadEvent.uploaded curPart] } := by
  unfold runUpload
  rw [h]

/-- `runUpload` on a failed part PUT latches the error and records the upload
event. -/
theorem runUpload_error (upload : Nat → List Nat → Except String String)
    (s : UploadState) (curPart : Nat) (data : List Nat) (e : String)
    (h : upload curPart data = Except.error e) :
    runUpload upload s curPart data
      = { s with errored := some e,
                 events := s.events ++ [UploadEvent.uploaded curPart] } := by
  unfold runUpload
  rw [h]

/-- A transform step whose remainder guard fires only latches the
size-mismatch message. -/
theorem processChunk_guard (crypto : CryptoFns)
    (upload : Nat → List Nat → Except String String) (totalSize partSize : Nat)
    (s : UploadState) (data : List Nat)
    (herr : s.errored = none)
    (hg : data.length < partSize
        ∧ (totalSize : Int) - (s.totalSeen : Int) ≠ (data.length : Int)) :
    processChunk crypto upload totalSize partSize s data
      = { s with errored := some sizeMismatchMsg } := by
  unfold processChunk
  rw [herr]
  simp only [Option.isSome_none, Bool.false_eq_true, if_false, if_pos hg]

/-- A transform step whose resume head matches the chunk's MD5 records the
stored etag, consumes the head, and does not upload. -/
theorem processChunk_matched (crypto : CryptoFns)
    (upload : Nat → List Nat → Except String String) (totalSize partSize : Nat)
    (s : UploadState) (data : List Nat) (r : ResumeRecord) (pa : List ResumeRecord)
    (herr : s.errored = none)
    (hpa : s.partsArray = r :: pa)
    (hre : r.etag = strToLower (crypto.md5Hex data))
    (hg : ¬ (data.length < partSize
        ∧ (totalSize : Int) - (s.totalSeen : Int) ≠ (data.length : Int))) :
    processChunk crypto upload totalSize partSize s data
      = { s with totalSeen := s.totalSeen + data.length, part := s.part + 1,
                 partsArray := pa,
                 events := s.events ++ [UploadEvent.hashed s.part],
                 etags := s.etags ++ [{ part := s.part, etag := r.etag }] } := by
  unfold processChunk
  rw [herr, hpa]
  simp only [Option.isSome_none, Bool.false_eq_true, if_false, if_neg hg]
  rw [if_pos hre, hre]

/-- A transform step whose resume head does not match consumes the head and
uploads the chunk. -/
theorem processChunk_head_mismatch (crypto : CryptoFns)
    (upload : Nat → List Nat → Except String String) (totalSize partSize : Nat)
    (s : UploadState) (data : List Nat) (r : ResumeRecord) (pa : List ResumeRecord)
    (herr : s.errored = none)
    (hpa : s.partsArray = r :: pa)
    (hre : r.etag ≠ strToLower (crypto.md5Hex data))
    (hg : ¬ (data.length < partSize
        ∧ (totalSize : Int) - (s.totalSeen : Int) ≠ (data.length : Int))) :
    processChunk crypto upload totalSize partSize s data
      = runUpload upload
          { s with totalSeen := s.totalSeen + data.length, part := s.part + 1,
                   partsArray := pa,
                   events := s.events ++ [UploadEvent.hashed s.part] }
          s.part data := by
  unfold processChunk
  rw [herr, hpa]
  simp only [Option.isSome_none, Bool.false_eq_true, if_false, if_neg hg]
  rw [if_neg hre]

/-- A transform step with an exhausted resume manifest uploads the chunk. -/
theorem processChunk_no_resume (crypto : CryptoFns)
    (upload : Nat → List Nat → Except String String) (totalSize partSize : Nat)
    (s : UploadState) (data : List Nat)
    (herr : s.errored = none)
    (hpa : s.partsArray = [])
    (hg : ¬ (data.length < partSize
        ∧ (totalSize : Int) - (s.totalSeen : Int) ≠ (data.length : Int))) :
    processChunk crypto upload totalSize partSize s data
      = runUpload upload
          { s with totalSeen := s.totalSeen + data.length, part := s.part + 1 }
          s.part data := by
  unfold processChunk
  rw [herr, hpa]
  simp only [Option.isSome_none, Bool.false_eq_true, if_false, if_neg hg]

/-- Skip phase: as long as each produced chunk's lowercase MD5 equals the
resume head's stored etag, the transform consumes one record per chunk in
order, records the stored etags at the running part numbers, uploads nothing,
and latches no error. -/
theorem processChunks_matched_run (crypto : CryptoFns)
    (upload : Nat → List Nat → Except String String) (totalSize partSize : Nat) :
    ∀ (cs rest : List (List Nat)) (s : UploadState),
      s.errored = none →
      chunksOk partSize (cs ++ rest) →
      s.totalSeen + sumLens (cs ++ rest) = totalSize →
      (s.partsArray.take cs.length).map ResumeRecord.etag
        = cs.map (fun c => strToLower (crypto.md5Hex c)) →
      processChunks crypto upload totalSize partSize s cs =
        { part := s.part + cs.length,
          errored := none,
          etags := s.etags ++ List.zipWith (fun n r => { part := n, etag := r.etag })
            (List.range' s.part cs.length) (s.partsArray.take cs.length),
          partsArray := s.partsArray.drop cs.length,
          totalSeen := s.totalSeen + sumLens cs,
          events := s.events ++ (List.range' s.part cs.length).map UploadEvent.hashed } := by
  intro cs
  induction cs with
  | nil =>
      intro rest s herr hok hsum hmatch
      rw [processChunks_nil, ← herr]
      simp [sumLens_nil]
  | cons c cs ih =>
      intro rest s herr hok hsum hmatch
      cases hpa : s.partsArray with
      | nil =>
          rw [hpa] at hmatch
          simp at hmatch
      | cons r pa =>
          rw [hpa] at hmatch
          simp only [List.length_cons, List.take_succ_cons, List.map_cons,
            List.cons.injEq] at hmatch
          obtain ⟨hre, hm⟩ := hmatch
          have hg := guard_not_triggered totalSize partSize s.totalSeen c (cs ++ rest) hok hsum
          rw [processChunks_cons,
            processChunk_matched crypto upload totalSize partSize s c r pa herr hpa hre hg]
          have hsum' : s.totalSeen + c.length + sumLens (cs ++ rest) = totalSize := by
            rw [List.cons_append, sumLens_cons] at hsum
            omega
          have hih := ih rest
            { part := s.part + 1, errored := s.errored,
              etags := s.etags ++ [{ part := s.part, etag := r.etag }],
              partsArray := pa, totalSeen := s.totalSeen + c.length,
              events := s.events ++ [UploadEvent.hashed s.part] }
            herr hok.2 hsum' hm
          rw [hih]
          simp [List.range'_succ, sumLens_cons]
          omega

/-- Flat form of a step that uploads with an exhausted resume manifest and
succeeds. -/
theorem processChunk_upload_ok_no_resume (crypto : CryptoFns)
    (upload : Nat → List Nat → Except String String) (totalSize partSize : Nat)
    (s : UploadState) (data : List Nat) (t : String)
    (herr : s.errored = none) (hpa : s.partsArray = [])
    (hg : ¬ (data.length < partSize
        ∧ (totalSize : Int) - (s.totalSeen : Int) ≠ (data.length : Int)))
    (hu : upload s.part data = Except.ok t) :
    processChunk crypto upload totalSize partSize s data
      = { part := s.part + 1, errored := s.errored,
          etags := s.etags ++ [{ part := s.part, etag := t }],
          partsArray := s.partsArray,
          totalSeen := s.totalSeen + data.length,
          events := s.events ++ [UploadEvent.uploaded s.part] } := by
  rw [processChunk_no_resume crypto upload totalSize partSize s data herr hpa hg,
    runUpload_ok upload _ s.part data t hu]

/-- Flat form of a step whose resume head does not match and whose upload
succeeds. -/
theorem processChunk_upload_ok_mismatch (crypto : CryptoFns)
    (upload : Nat → List Nat → Except String String) (totalSize partSize : Nat)
    (s : UploadState) (data : List Nat) (r : ResumeRecord) (pa : List ResumeRecord) (t : String)
    (herr : s.errored = none) (hpa : s.partsArray = r :: pa)
    (hre : r.etag ≠ strToLower (crypto.md5Hex data))
    (hg : ¬ (data.length < partSize
        ∧ (totalSize : Int) - (s.totalSeen : Int) ≠ (data.length : Int)))
    (hu : upload s.part data = Except.ok t) :
    processChunk crypto upload totalSize partSize s data
      = { part := s.part + 1, errored := s.errored,
          etags := s.etags ++ [{ part := s.part, etag := t }],
          partsArray := pa,
          totalSeen := s.totalSeen + data.length,
          events := s.events ++ [UploadEvent.hashed s.part, UploadEvent.uploaded s.part] } := by
  rw [processChunk_head_mismatch crypto upload totalSize partSize s data r pa herr hpa hre hg,
    runUpload_ok upload _ s.part data t hu]
  simp

/-- Finish phase: with a well-shaped chunk list tallying to the declared
total and an upload oracle that always succeeds, the run latches no error,
advances the part counter once per chunk, extends the manifest, consumes at
most the remaining resume records, tallies all bytes, and every upload event
it adds concerns the current or a later part. -/
theorem processChunks_all_ok (crypto : CryptoFns)
    (upload : Nat → List Nat → Except String String) (totalSize partSize : Nat) :
    ∀ (cs : List (List Nat)) (s : UploadState),
      s.errored = none →
      chunksOk partSize cs →
      s.totalSeen + sumLens cs = totalSize →
      (∀ n d, (upload n d).isOk = true) →
      ∃ newEtags newEvents,
        processChunks crypto upload totalSize partSize s cs =
          { part := s.part + cs.length, errored := none,
            etags := s.etags ++ newEtags,
            partsArray := s.partsArray.drop cs.length,
            totalSeen := s.totalSeen + sumLens cs,
            events := s.events ++ newEvents }
          ∧ ∀ p, UploadEvent.uploaded p ∈ newEvents → s.part ≤ p := by
  intro cs
  induction cs with
  | nil =>
      intro s herr hok hsum hup
      refine ⟨[], [], ?_, by simp⟩
      rw [processChunks_nil, ← herr]
      simp [sumLens_nil]
  | cons c cs ih =>
      intro s herr hok hsum hup
      have hg := guard_not_triggered totalSize partSize s.totalSeen c cs hok hsum
      have hsum' : s.totalSeen + c.length + sumLens cs = totalSize := by
        rw [sumLens_cons] at hsum
        omega
      have hoku : ∃ t, upload s.part c = Except.ok t := by
        cases hu : upload s.part c with
        | ok t => exact ⟨t, rfl⟩
        | error e =>
            have hiu := hup s.part c
            rw [hu] at hiu
            simp [Except.isOk, Except.toBool] at hiu
      obtain ⟨t, hu⟩ := hoku
      cases hpa : s.partsArray with
      | nil =>
          rw [processChunks_cons,
            processChunk_upload_ok_no_resume crypto upload totalSize partSize s c t
              herr hpa hg hu]
          obtain ⟨tl, ev, heq, hbd⟩ := ih
            { part := s.part + 1, errored := s.errored,
              etags := s.etags ++ [{ part := s.part, etag := t }],
              partsArray := s.partsArray, totalSeen := s.totalSeen + c.length,
              events := s.events ++ [UploadEvent.uploaded s.part] }
            herr hok.2 hsum' hup
          refine ⟨{ part := s.part, etag := t } :: tl,
            UploadEvent.uploaded s.part :: ev, ?_, ?_⟩
          · rw [heq]
            simp [sumLens_cons, hpa]
            omega
          · intro p hp
            rcases List.mem_cons.mp hp with h | h
            · injection h with h2
              omega
            · exact Nat.le_of_succ_le (hbd p h)
      | cons r pa =>
          by_cases hre : r.etag = strToLower (crypto.md5Hex c)
          · rw [processChunks_cons,
              processChunk_matched crypto upload totalSize partSize s c r pa herr hpa hre hg]
            obtain ⟨tl, ev, heq, hbd⟩ := ih
              { part := s.part + 1, errored := s.errored,
                etags := s.etags ++ [{ part := s.part, etag := r.etag }],
                partsArray := pa, totalSeen := s.totalSeen + c.length,
                events := s.events ++ [UploadEvent.hashed s.part] }
              herr hok.2 hsum' hup
            refine ⟨{ part := s.part, etag := r.etag } :: tl,
              UploadEvent.hashed s.part :: ev, ?_, ?_⟩
            · rw [heq]
              simp [sumLens_cons, hpa]
              omega
            · intro p hp
              rcases List.mem_cons.mp hp with h | h
              · simp at h
              · exact Nat.le_of_succ_le (hbd p h)
          · rw [processChunks_cons,
              processChunk_upload_ok_mismatch crypto upload totalSize partSize s c r pa t
                herr hpa hre hg hu]
            obtain ⟨tl, ev, heq, hbd⟩ := ih
              { part := s.part + 1, errored := s.errored,
                etags := s.etags ++ [{ part := s.part, etag := t }],
                partsArray := pa, totalSeen := s.totalSeen + c.length,
                events := s.events ++ [UploadEvent.hashed s.part, UploadEvent.uploaded s.part] }
              herr hok.2 hsum' hup
            refine ⟨{ part := s.part, etag := t } :: tl,
              UploadEvent.hashed s.part :: UploadEvent.uploaded s.part :: ev, ?_, ?_⟩
            · rw [heq]
              simp [sumLens_cons, hpa]
              omega
            · intro p hp
              rcases List.mem_cons.mp hp with h | h
              · simp at h
              rcases List.mem_cons.mp h with h2 | h2
              · injection h2 with h3
                omega
              · exact Nat.le_of_succ_le (hbd p h2)

/-- `sumLens` distributes over append. -/
theorem sumLens_append (as bs : List (List Nat)) :
    sumLens (as ++ bs) = sumLens as + sumLens bs := by
  simp [sumLens]

/-- `finishUpload` reports the latched error first (upload.js lines 130-132). -/
theorem finishUpload_err (totalSize : Nat) (s : UploadState) (e : String)
    (h : s.errored = some e) : finishUpload totalSize s = Except.error e := by
  unfold finishUpload
  rw [h]

/-- `finishUpload` without a latched error checks the byte tally
(upload.js lines 133-136). -/
theorem finishUpload_none (totalSize : Nat) (s : UploadState)
    (h : s.errored = none) :
    finishUpload totalSize s =
      if s.totalSeen ≠ totalSize then Except.error sizeMismatchMsg
      else Except.ok s.etags := by
  unfold finishUpload
  rw [h]

/-- With an always-succeeding upload oracle, a run from an unlatched state
either stays unlatched and tallies every chunk's bytes, or latches exactly the
size-mismatch message. -/
theorem processChunks_tally (crypto : CryptoFns)
    (upload : Nat → List Nat → Except String String) (totalSize partSize : Nat) :
    ∀ (cs : List (List Nat)) (s : UploadState),
      s.errored = none →
      (∀ n d, (upload n d).isOk = true) →
      ((processChunks crypto upload totalSize partSize s cs).errored = none
        ∧ (processChunks crypto upload totalSize partSize s cs).totalSeen
            = s.totalSeen + sumLens cs)
      ∨ (processChunks crypto upload totalSize partSize s cs).errored
          = some sizeMismatchMsg := by
  intro cs
  induction cs with
  | nil =>
      intro s herr hup
      exact Or.inl ⟨herr, by rw [processChunks_nil, sumLens_nil]; omega⟩
  | cons c cs ih =>
      intro s herr hup
      by_cases hg : (c.length < partSize
          ∧ (totalSize : Int) - (s.totalSeen : Int) ≠ (c.length : Int))
      · right
        rw [processChunks_cons, processChunk_guard crypto upload totalSize partSize s c herr hg,
          processChunks_frozen crypto upload totalSize partSize cs _ (by simp)]
      · have hoku : ∃ t, upload s.part c = Except.ok t := by
          cases hu : upload s.part c with
          | ok t => exact ⟨t, rfl⟩
          | error e =>
              have hiu := hup s.part c
              rw [hu] at hiu
              simp [Except.isOk, Except.toBool] at hiu
        obtain ⟨t, hu⟩ := hoku
        cases hpa : s.partsArray with
        | nil =>
            rw [processChunks_cons,
              processChunk_upload_ok_no_resume crypto upload totalSize partSize s c t
                herr hpa hg hu]
            rcases ih
              { part := s.part + 1, errored := s.errored,
                etags := s.etags ++ [{ part := s.part, etag := t }],
                partsArray := s.partsArray, totalSeen := s.totalSeen + c.length,
                events := s.events ++ [UploadEvent.uploaded s.part] }
              herr hup with ⟨h1, h2⟩ | h1
            · refine Or.inl ⟨h1, ?_⟩
              rw [h2]
              show s.totalSeen + c.length + sumLens cs = s.totalSeen + sumLens (c :: cs)
              rw [sumLens_cons]
              omega
            · exact Or.inr h1
        | cons r pa =>
            by_cases hre : r.etag = strToLower (crypto.md5Hex c)
            · rw [processChunks_cons,
                processChunk_matched crypto upload totalSize partSize s c r pa herr hpa hre hg]
              rcases ih
                { part := s.part + 1, errored := s.errored,
                  etags := s.etags ++ [{ part := s.part, etag := r.etag }],
                  partsArray := pa, totalSeen := s.totalSeen + c.length,
                  events := s.events ++ [UploadEvent.hashed s.part] }
                herr hup with ⟨h1, h2⟩ | h1
              · refine Or.inl ⟨h1, ?_⟩
                rw [h2]
                show s.totalSeen + c.length + sumLens cs = s.totalSeen + sumLens (c :: cs)
                rw [sumLens_cons]
                omega
              · exact Or.inr h1
            · rw [processChunks_cons,
                processChunk_upload_ok_mismatch crypto upload totalSize partSize s c r pa t
                  herr hpa hre hg hu]
              rcases ih
                { part := s.part + 1, errored := s.errored,
                  etags := s.etags ++ [{ part := s.part, etag := t }],
                  partsArray := pa, totalSeen := s.totalSeen + c.length,
                  events := s.events ++ [UploadEvent.hashed s.part, UploadEvent.uploaded s.part] }
                herr hup with ⟨h1, h2⟩ | h1
              · refine Or.inl ⟨h1, ?_⟩
                rw [h2]
                show s.totalSeen + c.length + sumLens cs = s.totalSeen + sumLens (c :: cs)
                rw [sumLens_cons]
                omega
              · exact Or.inr h1

/-- C4: whenever the input stream's actual byte length differs from the
declared total length — a short non-final chunk or a total shortfall or
overrun, by as little as one byte — `streamUpload` (with every attempted part
PUT succeeding, so that no transport error preempts the check) delivers the
`SizeMismatchError` message "actual size does not match specified size" to its
callback and never delivers a manifest, so no completion request can be
issued. -/
theorem streamUpload_size_mismatch_fails (crypto : CryptoFns)
    (upload : Nat → List Nat → Except String String)
    (resume : List ResumeRecord) (totalSize : Nat) (stream : List Nat)
    (hne : stream.length ≠ totalSize)
    (hup : ∀ n d, (upload n d).isOk = true) :
    streamUpload crypto upload resume totalSize stream
      = Except.error sizeMismatchMsg := by
  unfold streamUpload streamUploadState
  have hcl := chunkList_ok (calculatePartSize totalSize) (calculatePartSize_pos totalSize) stream
  rcases processChunks_tally crypto upload totalSize (calculatePartSize totalSize)
      (chunkList (calculatePartSize totalSize) stream) (initState resume) rfl hup
    with ⟨h1, h2⟩ | h1
  · rw [finishUpload_none totalSize _ h1, if_pos]
    rw [h2]
    show ¬ ((initState resume).totalSeen
        + sumLens (chunkList (calculatePartSize totalSize) stream) = totalSize)
    rw [hcl.2]
    show ¬ (0 + stream.length = totalSize)
    omega
  · exact finishUpload_err totalSize _ sizeMismatchMsg h1

/-- Witness for C4: declaring four bytes but streaming three fails with the
size-mismatch message. -/
theorem streamUpload_size_mismatch_fails_witness :
    streamUpload dummyCrypto okUpload [] 4 [1, 2, 3] = Except.error sizeMismatchMsg :=
  streamUpload_size_mismatch_fails dummyCrypto okUpload [] 4 [1, 2, 3] (by decide)
    (fun _ _ => rfl)

/-- C5: if the run reaches some chunk with no error latched and that chunk's
part upload fails with `e`, the whole orchestrator run stops there: the final
transform state is exactly the state right after the failing chunk (so no
later part is hashed or uploaded and no later completion can touch the latch
or the manifest), and the orchestrator's reported result is exactly that
first error, so no completion request can be issued. -/
theorem streamUpload_first_error_wins (crypto : CryptoFns)
    (upload : Nat → List Nat → Except String String)
    (resume : List ResumeRecord) (totalSize : Nat) (stream : List Nat)
    (pre post : List (List Nat)) (c : List Nat) (e : String)
    (hsplit : chunkList (calculatePartSize totalSize) stream = pre ++ c :: post)
    (h1 : (processChunks crypto upload totalSize (calculatePartSize totalSize)
        (initState resume) pre).errored = none)
    (h2 : (processChunk crypto upload totalSize (calculatePartSize totalSize)
        (processChunks crypto upload totalSize (calculatePartSize totalSize)
          (initState resume) pre) c).errored = some e)
    (h3 : upload (processChunks crypto upload totalSize (calculatePartSize totalSize)
        (initState resume) pre).part c = Except.error e) :
    streamUpload crypto upload resume totalSize stream = Except.error e
    ∧ streamUploadState crypto upload resume totalSize stream
        = processChunk crypto upload totalSize (calculatePartSize totalSize)
            (processChunks crypto upload totalSize (calculatePartSize totalSize)
              (initState resume) pre) c := by
  have hstate : streamUploadState crypto upload resume totalSize stream
      = processChunk crypto upload totalSize (calculatePartSize totalSize)
          (processChunks crypto upload totalSize (calculatePartSize totalSize)
            (initState resume) pre) c := by
    unfold streamUploadState
    rw [hsplit, processChunks_append, processChunks_cons,
      processChunks_frozen crypto upload totalSize (calculatePartSize totalSize) post _
        (by simp [h2])]
  refine ⟨?_, hstate⟩
  unfold streamUpload
  rw [hstate]
  exact finishUpload_err totalSize _ e h2

/-- Witness for C5: a one-chunk stream whose only part PUT fails with "boom";
the orchestrator reports exactly that error. -/
theorem streamUpload_first_error_wins_witness :
    streamUpload dummyCrypto failUpload [] 1 [7] = Except.error "boom" :=
  (streamUpload_first_error_wins dummyCrypto failUpload [] 1 [7] [] [] [7] "boom"
    (by decide) (by decide) (by decide) rfl).1

/-- C3: when the first `K` stored resume hashes equal the lowercase-hex MD5
digests of the first `K` chunks produced by re-chunking the stream (declared
at its true length, with every attempted upload succeeding), the orchestrator
uploads none of parts `1..K` — every upload event concerns a later part — and
the delivered manifest begins with entries `(1, tag 1), ..., (K, tag K)`
carrying the stored entity tags verbatim, the `K` head records having been
consumed one per part in order. -/
theorem streamUpload_resume_reuses_stored_etags (crypto : CryptoFns)
    (upload : Nat → List Nat → Except String String)
    (resume : List ResumeRecord) (stream : List Nat) (K : Nat)
    (hK : K ≤ (chunkList (calculatePartSize stream.length) stream).length)
    (hmatch : (resume.take K).map ResumeRecord.etag
      = ((chunkList (calculatePartSize stream.length) stream).take K).map
          (fun c => strToLower (crypto.md5Hex c)))
    (hup : ∀ n d, (upload n d).isOk = true) :
    ∃ tailEtags,
      streamUpload crypto upload resume stream.length stream
        = Except.ok (List.zipWith (fun n r => PartEtag.mk n r.etag)
            (List.range' 1 K) (resume.take K) ++ tailEtags)
      ∧ ∀ p, UploadEvent.uploaded p
          ∈ (streamUploadState crypto upload resume stream.length stream).events
          → K < p := by
  have hcl := chunkList_ok (calculatePartSize stream.length)
    (calculatePartSize_pos stream.length) stream
  have hKlen : ((chunkList (calculatePartSize stream.length) stream).take K).length = K := by
    rw [List.length_take]
    omega
  have h1 := processChunks_matched_run crypto upload stream.length
    (calculatePartSize stream.length)
    ((chunkList (calculatePartSize stream.length) stream).take K)
    ((chunkList (calculatePartSize stream.length) stream).drop K)
    (initState resume) rfl
    (by rw [List.take_append_drop]; exact hcl.1)
    (by rw [List.take_append_drop]
        show 0 + sumLens (chunkList (calculatePartSize stream.length) stream) = stream.length
        rw [hcl.2]
        omega)
    (by rw [hKlen]
        exact hmatch)
  obtain ⟨tl, ev, h2, hbd⟩ := processChunks_all_ok crypto upload stream.length
    (calculatePartSize stream.length)
    ((chunkList (calculatePartSize stream.length) stream).drop K)
    (processChunks crypto upload stream.length (calculatePartSize stream.length)
      (initState resume) ((chunkList (calculatePartSize stream.length) stream).take K))
    (by rw [h1])
    (chunksOk_suffix (calculatePartSize stream.length) _ _
      (by rw [List.take_append_drop]; exact hcl.1))
    (by rw [h1]
        show 0 + sumLens ((chunkList (calculatePartSize stream.length) stream).take K)
            + sumLens ((chunkList (calculatePartSize stream.length) stream).drop K)
          = stream.length
        rw [Nat.zero_add, ← sumLens_append, List.take_append_drop, hcl.2])
    hup
  have hsplitrun : processChunks crypto upload stream.length
      (calculatePartSize stream.length) (initState resume)
      (chunkList (calculatePartSize stream.length) stream)
      = processChunks crypto upload stream.length (calculatePartSize stream.length)
          (processChunks crypto upload stream.length (calculatePartSize stream.length)
            (initState resume)
            ((chunkList (calculatePartSize stream.length) stream).take K))
          ((chunkList (calculatePartSize stream.length) stream).drop K) := by
    conv_lhs => rw [← List.take_append_drop K
      (chunkList (calculatePartSize stream.length) stream)]
    rw [processChunks_append]
  have htot : (processChunks crypto upload stream.length (calculatePartSize stream.length)
        (initState resume)
        ((chunkList (calculatePartSize stream.length) stream).take K)).totalSeen
      + sumLens ((chunkList (calculatePartSize stream.length) stream).drop K)
      = stream.length := by
    rw [h1]
    show 0 + sumLens ((chunkList (calculatePartSize stream.length) stream).take K)
        + sumLens ((chunkList (calculatePartSize stream.length) stream).drop K)
      = stream.length
    rw [Nat.zero_add, ← sumLens_append, List.take_append_drop, hcl.2]
  refine ⟨tl, ?_, ?_⟩
  · unfold streamUpload streamUploadState
    rw [hsplitrun, h2, finishUpload_none stream.length _ rfl,
      if_neg (fun hne2 => hne2 htot)]
    congr 1
    show (processChunks crypto upload stream.length (calculatePartSize stream.length)
        (initState resume)
        ((chunkList (calculatePartSize stream.length) stream).take K)).etags ++ tl
      = List.zipWith (fun n r => PartEtag.mk n r.etag) (List.range' 1 K) (resume.take K) ++ tl
    rw [h1]
    simp [initState, hKlen]
  · intro p hp
    unfold streamUploadState at hp
    rw [hsplitrun, h2] at hp
    have hp2 : UploadEvent.uploaded p
        ∈ (processChunks crypto upload stream.length (calculatePartSize stream.length)
            (initState resume)
            ((chunkList (calculatePartSize stream.length) stream).take K)).events ++ ev := hp
    rcases List.mem_append.mp hp2 with h | h
    · rw [h1] at h
      simp [initState] at h
    · have hb := hbd p h
      rw [h1] at hb
      simp only [initState] at hb
      rw [hKlen] at hb
      omega

/-- Witness for C3: a three-byte stream in one chunk, a one-record resume
manifest whose stored hash equals the chunk's digest; the manifest starts with
the stored tag and no upload event concerns part 1. -/
theorem streamUpload_resume_reuses_stored_etags_witness :
    ∃ tailEtags,
      streamUpload dummyCrypto okUpload [{ etag := "m3" }] 3 [7, 8, 9]
        = Except.ok (List.zipWith (fun n (r : ResumeRecord) => PartEtag.mk n r.etag)
            (List.range' 1 1) (([{ etag := "m3" }] : List ResumeRecord).take 1) ++ tailEtags)
      ∧ ∀ p, UploadEvent.uploaded p
          ∈ (streamUploadState dummyCrypto okUpload [{ etag := "m3" }] 3 [7, 8, 9]).events
          → 1 < p :=
  streamUpload_resume_reuses_stored_etags dummyCrypto okUpload
    [{ etag := "m3" }] [7, 8, 9] 1 (by decide) (by decide) (fun _ _ => rfl)
